import Mathlib

/-!
Shallow embedding of `system/utest/debugger/debugger.c` (Magenta debugger
test harness).  Pure control flow is translated directly; interactions with
the kernel (port waits, handle resolution, memory transfers, message
receipt, per-cycle fault recovery) are parameters supplied by an
environment, one field per syscall result, so that every branch of the C
code is represented.
-/

/-- 0.5 seconds, in nanoseconds (`WATCHDOG_DURATION_TICK`). -/
def WATCHDOG_DURATION_TICK : Nat := 500 * 1000 * 1000

/-- Number of watchdog polling ticks (`WATCHDOG_DURATION_TICKS`). -/
def WATCHDOG_DURATION_TICKS : Nat := 10

/-- Size of the test buffer (`TEST_MEMORY_SIZE`). -/
def TEST_MEMORY_SIZE : Nat := 8

/-- Per-byte adjustment written by the supervisor (`TEST_DATA_ADJUST`). -/
def TEST_DATA_ADJUST : Nat := 0x10

/-- Number of segv recovery iterations (`NUM_SEGV_TRIES`). -/
def NUM_SEGV_TRIES : Nat := 4

/-- Number of extra threads the inferior starts (`NUM_EXTRA_THREADS`). -/
def NUM_EXTRA_THREADS : Nat := 4

/-- Object type reported for thread handles (`MX_OBJ_TYPE_THREAD`, from the
external magenta headers; its concrete value is immaterial here). -/
def MX_OBJ_TYPE_THREAD : Nat := 2

/-- Classification of `packet.report.header.type` as the wait loop tests it:
`MX_EXCP_GONE`, an architectural exception (`MX_EXCP_IS_ARCH`), or anything
else (the `ASSERT_EQ(false, true, ...)` branch). -/
inductive ExcpType where
  | gone
  | arch
  | other
deriving DecidableEq, Repr

/-- The exception packet fields the wait loop reads: the header type and the
faulting thread id (`packet.report.context.tid`). -/
structure Packet where
  excpType : ExcpType
  tid : Nat
deriving DecidableEq, Repr

/-- Kernel-supplied results consumed by one iteration of the wait loop in
`wait_inferior_thread_worker`: the `mx_port_wait` status and packet, the
`mx_object_get_child` status, and the `mx_task_resume` status. -/
structure IterEnv where
  waitStatus : Int
  packet : Packet
  childStatus : Int
  resumeStatus : Int
deriving DecidableEq, Repr

/-- Outcome of one body of the wait loop. -/
inductive IterOut where
  | ok
  | gone
  | fail
deriving DecidableEq, Repr

/-- One iteration of the loop body of `wait_inferior_thread_worker`:
`ASSERT_EQ(mx_port_wait(...), NO_ERROR)`, then the classification of the
packet type (`MX_EXCP_GONE` breaks; non-architectural types hit
`ASSERT_EQ(false, true)`), then `ASSERT_EQ(status, 0)` on
`mx_object_get_child`, then (after `dump_inferior_regs`, `test_memory_ops`
and `fix_inferior_segv`, none of which aborts the worker)
`ASSERT_EQ(status, NO_ERROR)` on `mx_task_resume`. -/
def iterBody (e : IterEnv) : IterOut :=
  if e.waitStatus ≠ 0 then .fail
  else
    match e.packet.excpType with
    | .gone => .gone
    | .other => .fail
    | .arch =>
      if e.childStatus ≠ 0 then .fail
      else if e.resumeStatus ≠ 0 then .fail
      else .ok

/-- How the `for (i = 0; i < NUM_SEGV_TRIES; ++i)` loop exited: an in-body
`ASSERT_*` returned false at iteration `i`, the `MX_EXCP_GONE` `break` fired
at iteration `i`, or the loop condition became false with counter `i`. -/
inductive LoopExit where
  | fail (i : Nat)
  | gone (i : Nat)
  | done (i : Nat)
deriving DecidableEq, Repr

/-- Fuel-indexed runner for the wait loop; `fuel` is `NUM_SEGV_TRIES - i`,
so fuel `0` means the loop condition `i < NUM_SEGV_TRIES` is false. -/
def loopGo (env : Nat → IterEnv) : Nat → Nat → LoopExit
  | i, 0 => .done i
  | i, fuel + 1 =>
    match iterBody (env i) with
    | .gone => .gone i
    | .fail => .fail i
    | .ok => loopGo env (i + 1) fuel

/-- The wait loop of `wait_inferior_thread_worker` started at counter `i`. -/
def loopFrom (env : Nat → IterEnv) (i : Nat) : LoopExit :=
  loopGo env i (NUM_SEGV_TRIES - i)

/-- `wait_inferior_thread_worker`: run the loop from `i = 0`; an in-body
`ASSERT_*` failure returns false; otherwise the final
`ASSERT_EQ(i, NUM_SEGV_TRIES, "segv tests terminated prematurely")` decides
the result, and on success the worker returns true. -/
def wait_inferior_thread_worker (env : Nat → IterEnv) : Bool :=
  match loopFrom env 0 with
  | .fail _ => false
  | .gone i => i == NUM_SEGV_TRIES
  | .done i => i == NUM_SEGV_TRIES

theorem loopGo_done {env : Nat → IterEnv} :
    ∀ fuel i j, loopGo env i fuel = .done j → j = i + fuel := by
  intro fuel
  induction fuel with
  | zero => intro i j h; simp [loopGo] at h; omega
  | succ n ih =>
    intro i j h
    simp only [loopGo] at h
    cases hb : iterBody (env i) <;> simp [hb] at h
    have := ih (i + 1) j h
    omega

theorem loopGo_gone {env : Nat → IterEnv} :
    ∀ fuel i j, loopGo env i fuel = .gone j → i ≤ j ∧ j < i + fuel := by
  intro fuel
  induction fuel with
  | zero => intro i j h; simp [loopGo] at h
  | succ n ih =>
    intro i j h
    simp only [loopGo] at h
    cases hb : iterBody (env i) <;> simp [hb] at h
    · have := ih (i + 1) j h
      omega
    · omega

theorem loopGo_fail {env : Nat → IterEnv} :
    ∀ fuel i j, loopGo env i fuel = .fail j → i ≤ j ∧ j < i + fuel := by
  intro fuel
  induction fuel with
  | zero => intro i j h; simp [loopGo] at h
  | succ n ih =>
    intro i j h
    simp only [loopGo] at h
    cases hb : iterBody (env i) <;> simp [hb] at h
    · have := ih (i + 1) j h
      omega
    · omega

theorem loopGo_step {env : Nat → IterEnv} {i fuel : Nat}
    (h : iterBody (env i) = .ok) :
    loopGo env i (fuel + 1) = loopGo env (i + 1) fuel := by
  simp [loopGo, h]

theorem loopGo_fail_reach {env : Nat → IterEnv} :
    ∀ fuel k i, k ≤ i → i < k + fuel →
      (∀ j, k ≤ j → j < i → iterBody (env j) = .ok) →
      iterBody (env i) = .fail →
      loopGo env k fuel = .fail i := by
  intro fuel
  induction fuel with
  | zero => intro k i h1 h2 _ _; omega
  | succ n ih =>
    intro k i h1 h2 hok hf
    rcases Nat.eq_or_lt_of_le h1 with rfl | hlt
    · simp [loopGo, hf]
    · have hk : iterBody (env k) = .ok := hok k le_rfl hlt
      rw [loopGo_step hk]
      exact ih (k + 1) i hlt (by omega) (fun j hj1 hj2 => hok j (by omega) hj2) hf

/-- Claim C1: the wait loop of `wait_inferior_thread_worker` succeeds exactly
when it completes all `NUM_SEGV_TRIES` (4) iterations, and whenever the loop
terminates early — by the `MX_EXCP_GONE` break or an in-body assertion — the
final `ASSERT_EQ(i, NUM_SEGV_TRIES)` makes the worker report failure. -/
theorem wait_inferior_worker_iteration_count (env : Nat → IterEnv) :
    (wait_inferior_thread_worker env = true ↔
      loopFrom env 0 = .done NUM_SEGV_TRIES)
    ∧ ∀ i, (loopFrom env 0 = .gone i ∨ loopFrom env 0 = .fail i) →
        i < NUM_SEGV_TRIES ∧ wait_inferior_thread_worker env = false := by
  cases h : loopFrom env 0 with
  | fail j =>
    have hb := loopGo_fail (NUM_SEGV_TRIES - 0) 0 j h
    refine ⟨by simp [wait_inferior_thread_worker, h], ?_⟩
    intro i hi
    rcases hi with hi | hi
    · exact absurd hi (by simp)
    · injection hi with hj
      subst hj
      exact ⟨by omega, by simp [wait_inferior_thread_worker, h]⟩
  | gone j =>
    have hb := loopGo_gone (NUM_SEGV_TRIES - 0) 0 j h
    have hj4 : j ≠ NUM_SEGV_TRIES := by omega
    refine ⟨?_, ?_⟩
    · simp [wait_inferior_thread_worker, h, hj4]
    · intro i hi
      rcases hi with hi | hi
      · injection hi with hj
        subst hj
        exact ⟨by omega, by simp [wait_inferior_thread_worker, h, hj4]⟩
      · exact absurd hi (by simp)
  | done j =>
    have hj : j = NUM_SEGV_TRIES := by
      have := loopGo_done (NUM_SEGV_TRIES - 0) 0 j h
      omega
    subst hj
    refine ⟨by simp [wait_inferior_thread_worker, h], ?_⟩
    intro i hi
    rcases hi with hi | hi <;> exact absurd hi (by simp)

/-- An environment whose second notification is `MX_EXCP_GONE` (and the rest
clean architectural exceptions). -/
def goneAtOneEnv : Nat → IterEnv :=
  fun i => if i = 1 then ⟨0, ⟨.gone, 7⟩, 0, 0⟩ else ⟨0, ⟨.arch, 7⟩, 0, 0⟩

theorem wait_inferior_worker_iteration_count_witness :
    1 < NUM_SEGV_TRIES ∧ wait_inferior_thread_worker goneAtOneEnv = false :=
  (wait_inferior_worker_iteration_count goneAtOneEnv).2 1 (Or.inl (by decide))

/-- Claim C5: in the wait loop, a notification that is neither
`MX_EXCP_GONE` nor architectural, and likewise a failure of
`mx_object_get_child` to resolve the faulting tid, make the iteration body
fail its assertion, abort the loop at that iteration, and make the worker
return false — there is no recovery path. -/
theorem wait_inferior_fatal_asserts (env : Nat → IterEnv) (i : Nat)
    (hi : i < NUM_SEGV_TRIES)
    (hok : ∀ j, j < i → iterBody (env j) = .ok)
    (hfail : ((env i).waitStatus = 0 ∧ (env i).packet.excpType = .other)
      ∨ ((env i).waitStatus = 0 ∧ (env i).packet.excpType = .arch ∧
          (env i).childStatus ≠ 0)) :
    iterBody (env i) = .fail ∧ loopFrom env 0 = .fail i ∧
      wait_inferior_thread_worker env = false := by
  have hf : iterBody (env i) = .fail := by
    rcases hfail with ⟨h0, ht⟩ | ⟨h0, ht, hc⟩
    · simp [iterBody, h0, ht]
    · simp [iterBody, h0, ht, hc]
  have hloop : loopFrom env 0 = .fail i :=
    loopGo_fail_reach (NUM_SEGV_TRIES - 0) 0 i (Nat.zero_le i) (by omega)
      (fun j _ hj2 => hok j hj2) hf
  exact ⟨hf, hloop, by simp [wait_inferior_thread_worker, hloop]⟩

/-- An environment whose first notification has an unexpected kind. -/
def badKindEnv : Nat → IterEnv := fun _ => ⟨0, ⟨.other, 7⟩, 0, 0⟩

theorem wait_inferior_fatal_asserts_witness :
    iterBody (badKindEnv 0) = .fail ∧ loopFrom badKindEnv 0 = .fail 0 ∧
      wait_inferior_thread_worker badKindEnv = false :=
  wait_inferior_fatal_asserts badKindEnv 0 (by decide)
    (fun j hj => absurd hj (Nat.not_lt_zero j)) (Or.inl (by decide))

/-- How `watchdog_thread_func` ends: `mx_thread_exit()` after observing the
done flag at poll `i`, or `exit(5)` killing the whole process. -/
inductive WatchdogOutcome where
  | threadExit (i : Nat)
  | processExit (code : Int)
deriving DecidableEq, Repr

/-- Fuel-indexed runner for the watchdog loop
`for (int i = 0; i < WATCHDOG_DURATION_TICKS; ++i)`; each iteration sleeps
one `WATCHDOG_DURATION_TICK` and then polls `done_tests`; `flag i` is the
value of `done_tests` observed at poll `i`.  Fuel `0` means the loop
condition is false, reaching `exit(5)`. -/
def watchdogGo (flag : Nat → Bool) : Nat → Nat → WatchdogOutcome
  | _, 0 => .processExit 5
  | i, fuel + 1 =>
    if flag i then .threadExit i else watchdogGo flag (i + 1) fuel

/-- `watchdog_thread_func`: the polling loop started at `i = 0`. -/
def watchdog_thread_func (flag : Nat → Bool) : WatchdogOutcome :=
  watchdogGo flag 0 WATCHDOG_DURATION_TICKS

theorem watchdogGo_allFalse {flag : Nat → Bool} :
    ∀ fuel k, (∀ i, k ≤ i → i < k + fuel → flag i = false) →
      watchdogGo flag k fuel = .processExit 5 := by
  intro fuel
  induction fuel with
  | zero => intro k _; rfl
  | succ n ih =>
    intro k hall
    have hk : flag k = false := hall k le_rfl (by omega)
    simp only [watchdogGo, hk, if_false, Bool.false_eq_true]
    exact ih (k + 1) (fun i h1 h2 => hall i (by omega) (by omega))

theorem watchdogGo_firstTrue {flag : Nat → Bool} :
    ∀ fuel k i, k ≤ i → i < k + fuel → flag i = true →
      (∀ j, k ≤ j → j < i → flag j = false) →
      watchdogGo flag k fuel = .threadExit i := by
  intro fuel
  induction fuel with
  | zero => intro k i h1 h2 _ _; omega
  | succ n ih =>
    intro k i h1 h2 ht hprev
    rcases Nat.eq_or_lt_of_le h1 with rfl | hlt
    · simp [watchdogGo, ht]
    · have hk : flag k = false := hprev k le_rfl hlt
      simp only [watchdogGo, hk, if_false, Bool.false_eq_true]
      exact ih (k + 1) i hlt (by omega) ht (fun j hj1 hj2 => hprev j (by omega) hj2)

/-- Claim C3: the watchdog polls `done_tests` once per tick for at most
`WATCHDOG_DURATION_TICKS` (10) ticks; if the flag is true at some poll it
exits only its own thread (`mx_thread_exit`), and if all polls see false it
terminates the whole process via `exit(5)`. -/
theorem watchdog_behavior (flag : Nat → Bool) :
    WATCHDOG_DURATION_TICKS = 10
    ∧ ((∀ i, i < WATCHDOG_DURATION_TICKS → flag i = false) →
        watchdog_thread_func flag = .processExit 5)
    ∧ (∀ i, i < WATCHDOG_DURATION_TICKS → flag i = true →
        (∀ j, j < i → flag j = false) →
        watchdog_thread_func flag = .threadExit i
          ∧ ∀ c, watchdog_thread_func flag ≠ .processExit c) := by
  refine ⟨rfl, ?_, ?_⟩
  · intro hall
    exact watchdogGo_allFalse WATCHDOG_DURATION_TICKS 0
      (fun i _ h2 => hall i (by omega))
  · intro i hi ht hprev
    have h := watchdogGo_firstTrue WATCHDOG_DURATION_TICKS 0 i (Nat.zero_le i)
      (by omega) ht (fun j _ hj2 => hprev j hj2)
    refine ⟨h, ?_⟩
    intro c hc
    rw [watchdog_thread_func] at hc
    rw [h] at hc
    exact absurd hc (by simp)

/-- A done flag that becomes (and stays) true at poll 3. -/
def flagAtThree : Nat → Bool := fun i => 3 ≤ i

theorem watchdog_behavior_witness :
    watchdog_thread_func flagAtThree = .threadExit 3
      ∧ ∀ c, watchdog_thread_func flagAtThree ≠ .processExit c :=
  (watchdog_behavior flagAtThree).2.2 3 (by decide) (by decide) (by decide)

/-- One supervisor-side access to the inferior's memory, as issued by
`test_memory_ops`: a `read_inferior_memory` of `len` bytes or a
`write_inferior_memory` of `data` (of requested length `len`). -/
inductive MemOp where
  | read (len : Nat)
  | write (data : List Nat) (len : Nat)
deriving DecidableEq, Repr

/-- Kernel-supplied results consumed by `test_memory_ops`: the byte count
returned by `read_inferior_memory`, the bytes it places in `test_data`, and
the byte count returned by `write_inferior_memory`. -/
structure MemEnv where
  readSsize : Int
  readData : List Nat
  writeSsize : Int
deriving DecidableEq, Repr

/-- The inferior's seeding of its stack buffer in `test_prep_and_segv`:
`test_data[i] = i` for `i < TEST_MEMORY_SIZE`. -/
def seedBuffer : List Nat := List.range TEST_MEMORY_SIZE

/-- The supervisor's per-byte update in `test_memory_ops`:
`test_data[i] += TEST_DATA_ADJUST` on each `uint8_t` (hence mod 256). -/
def adjust (buf : List Nat) : List Nat :=
  buf.map (fun b => (b + TEST_DATA_ADJUST) % 256)

/-- `test_memory_ops`: read `sizeof(test_data)` bytes from the inferior and
`EXPECT_EQ` the returned count against the request; `EXPECT_EQ` each byte
against `i`; add `TEST_DATA_ADJUST` to each byte; write the buffer back and
`EXPECT_EQ` the returned count against the request.  Result: whether all
`EXPECT_EQ`s held (they record failure but do not abort), plus the list of
memory operations issued. -/
def test_memory_ops (env : MemEnv) : Bool × List MemOp :=
  let ok₁ := env.readSsize == (TEST_MEMORY_SIZE : Int)
  let ok₂ := (List.range TEST_MEMORY_SIZE).all
    (fun i => env.readData.getD i 0 == i)
  let written := adjust env.readData
  let ok₃ := env.writeSsize == (TEST_MEMORY_SIZE : Int)
  (ok₁ && ok₂ && ok₃,
    [.read TEST_MEMORY_SIZE, .write written TEST_MEMORY_SIZE])

/-- The verification in `test_prep_and_segv` after the faulting thread is
resumed: the buffer was seeded with `seedBuffer` (`test_data[i] = i`), the
fault and the supervisor's external write happen in between, and
`bufAfterResume` is the buffer contents the inferior re-reads; the function
returns false (leading its caller to `exit(21)`) unless every byte equals
`i + TEST_DATA_ADJUST`. -/
def test_prep_and_segv (bufAfterResume : List Nat) : Bool :=
  (List.range TEST_MEMORY_SIZE).all
    (fun i => bufAfterResume.getD i 0 == i + TEST_DATA_ADJUST)

/-- Claim C2: the inferior seeds its 8-byte buffer with `0..7`; the
supervisor's checks pass exactly when the read returns that seeded sequence
in full; the supervisor writes back every byte incremented by `0x10`; and
the inferior's post-resume verification succeeds exactly when every byte `i`
reads `i + 0x10` — in particular it succeeds on the buffer the supervisor
wrote. -/
theorem memory_roundtrip :
    seedBuffer = [0, 1, 2, 3, 4, 5, 6, 7]
    ∧ (∀ env : MemEnv, (test_memory_ops env).1 = true ↔
        (env.readSsize = (TEST_MEMORY_SIZE : Int)
          ∧ (∀ i, i < TEST_MEMORY_SIZE → env.readData.getD i 0 = i)
          ∧ env.writeSsize = (TEST_MEMORY_SIZE : Int)))
    ∧ adjust seedBuffer =
        [0x10, 0x11, 0x12, 0x13, 0x14, 0x15, 0x16, 0x17]
    ∧ (∀ buf, test_prep_and_segv buf = true ↔
        ∀ i, i < TEST_MEMORY_SIZE → buf.getD i 0 = i + TEST_DATA_ADJUST)
    ∧ test_prep_and_segv (adjust seedBuffer) = true := by
  refine ⟨by decide, ?_, by decide, ?_, by decide⟩
  · intro env
    simp [test_memory_ops, List.all_eq_true, List.mem_range, and_assoc]
  · intro buf
    simp [test_prep_and_segv, List.all_eq_true, List.mem_range]

theorem memory_roundtrip_witness :
    (test_memory_ops ⟨8, seedBuffer, 8⟩).1 = true :=
  (memory_roundtrip.2.1 ⟨8, seedBuffer, 8⟩).mpr (by decide)

/-- Claim C7: `test_memory_ops` issues exactly one read and one write (no
retry regardless of the returned counts), and a returned count differing
from the requested `sizeof(test_data)` on either the read or the write
makes its result false (a reported test failure). -/
theorem memory_short_transfer (env : MemEnv) :
    (test_memory_ops env).2 =
      [.read TEST_MEMORY_SIZE, .write (adjust env.readData) TEST_MEMORY_SIZE]
    ∧ (env.readSsize ≠ (TEST_MEMORY_SIZE : Int) →
        (test_memory_ops env).1 = false)
    ∧ (env.writeSsize ≠ (TEST_MEMORY_SIZE : Int) →
        (test_memory_ops env).1 = false) := by
  refine ⟨rfl, ?_, ?_⟩
  · intro h
    simp [test_memory_ops, h]
  · intro h
    simp [test_memory_ops, h]

theorem memory_short_transfer_witness :
    (test_memory_ops ⟨3, seedBuffer, 8⟩).1 = false :=
  (memory_short_transfer ⟨3, seedBuffer, 8⟩).2.1 (by decide)

/-- The control-channel message kinds exchanged in the program (`enum
message` in utils.h), plus `unknown n` for any value outside the
enumeration, which the `switch` default case handles. -/
inductive Message where
  | MSG_DONE
  | MSG_PING
  | MSG_PONG
  | MSG_CRASH
  | MSG_RECOVERED_FROM_CRASH
  | MSG_START_EXTRA_THREADS
  | MSG_EXTRA_THREADS_STARTED
  | unknown (n : Int)
deriving DecidableEq, Repr

/-- How `msg_loop` ends: `exit(code)` from inside the loop, or returning
`ok` to `test_inferior` (`END_HELPER`; `false` when `ASSERT_TRUE` on
`recv_msg` failed). -/
inductive MsgLoopOutcome where
  | exitProcess (code : Int)
  | returns (ok : Bool)
deriving DecidableEq, Repr

/-- What a run of `msg_loop` did: its outcome, the messages it sent over the
pipe in order, and how many extra threads it spawned. -/
structure MsgLoopResult where
  outcome : MsgLoopOutcome
  sends : List Message
  threadsSpawned : Nat
deriving DecidableEq, Repr

/-- The `MSG_CRASH` handler's inner loop
`for (int i = 0; i < NUM_SEGV_TRIES; ++i) if (!test_prep_and_segv()) exit(21);`:
`segvOk n` is the result of the `n`-th call to `test_prep_and_segv` overall
and `k` the number of calls made before this handler ran; the result is the
first failing cycle, if any. -/
def firstSegvFailure (segvOk : Nat → Bool) (k : Nat) : Option Nat :=
  (List.range NUM_SEGV_TRIES).find? (fun i => !segvOk (k + i))

/-- `msg_loop`, driven by the list of messages `recv_msg` will deliver
(list end models `recv_msg` returning false — channel closed — which fails
the `ASSERT_TRUE`).  `done_tests` is false for the whole loop in the
inferior process (it is assigned only after `msg_loop` returns, and the
extra threads never write it), so the `while (!done_tests &&
!my_done_tests)` condition is `!my_done_tests`.  `k` counts prior
`test_prep_and_segv` calls. -/
def msg_loop_go (segvOk : Nat → Bool) : Nat → List Message → MsgLoopResult
  | _, [] => ⟨.returns false, [], 0⟩
  | k, m :: rest =>
    match m with
    | .MSG_DONE => ⟨.returns true, [], 0⟩
    | .MSG_PING =>
      let r := msg_loop_go segvOk k rest
      ⟨r.outcome, .MSG_PONG :: r.sends, r.threadsSpawned⟩
    | .MSG_CRASH =>
      match firstSegvFailure segvOk k with
      | some _ => ⟨.exitProcess 21, [], 0⟩
      | none =>
        let r := msg_loop_go segvOk (k + NUM_SEGV_TRIES) rest
        ⟨r.outcome, .MSG_RECOVERED_FROM_CRASH :: r.sends, r.threadsSpawned⟩
    | .MSG_START_EXTRA_THREADS =>
      let r := msg_loop_go segvOk k rest
      ⟨r.outcome, .MSG_EXTRA_THREADS_STARTED :: r.sends,
        NUM_EXTRA_THREADS + r.threadsSpawned⟩
    | _ => msg_loop_go segvOk k rest

/-- `msg_loop` from the start of the inferior's run. -/
def msg_loop (segvOk : Nat → Bool) (msgs : List Message) : MsgLoopResult :=
  msg_loop_go segvOk 0 msgs

/-- `test_inferior`: run `msg_loop`; `exit(20)` if it returned false, else
set `done_tests = true` and `exit(1234)`; an `exit` from inside `msg_loop`
ends the process before `done_tests` is assigned.  The result is the final
value of `done_tests` in the inferior and the process exit code. -/
def test_inferior (segvOk : Nat → Bool) (msgs : List Message) : Bool × Int :=
  match (msg_loop segvOk msgs).outcome with
  | .exitProcess c => (false, c)
  | .returns false => (false, 20)
  | .returns true => (true, 1234)

/-- Claim C4: on `MSG_CRASH` the inferior replies
`MSG_RECOVERED_FROM_CRASH` exactly when all `NUM_SEGV_TRIES` (4)
`test_prep_and_segv` cycles succeed; if any cycle fails it exits
immediately with code 21, sending nothing and spawning nothing. -/
theorem crash_reply_after_all_tries (segvOk : Nat → Bool) (k : Nat)
    (rest : List Message) :
    (firstSegvFailure segvOk k = none ↔
      ∀ i, i < NUM_SEGV_TRIES → segvOk (k + i) = true)
    ∧ ((∀ i, i < NUM_SEGV_TRIES → segvOk (k + i) = true) →
        msg_loop_go segvOk k (.MSG_CRASH :: rest) =
          ⟨(msg_loop_go segvOk (k + NUM_SEGV_TRIES) rest).outcome,
            .MSG_RECOVERED_FROM_CRASH ::
              (msg_loop_go segvOk (k + NUM_SEGV_TRIES) rest).sends,
            (msg_loop_go segvOk (k + NUM_SEGV_TRIES) rest).threadsSpawned⟩)
    ∧ ((∃ i, i < NUM_SEGV_TRIES ∧ segvOk (k + i) = false) →
        msg_loop_go segvOk k (.MSG_CRASH :: rest) =
          ⟨.exitProcess 21, [], 0⟩) := by
  have hiff : firstSegvFailure segvOk k = none ↔
      ∀ i, i < NUM_SEGV_TRIES → segvOk (k + i) = true := by
    simp [firstSegvFailure, List.find?_eq_none, List.mem_range]
  refine ⟨hiff, ?_, ?_⟩
  · intro hall
    have h0 : firstSegvFailure segvOk k = none := hiff.mpr hall
    simp [msg_loop_go, h0]
  · intro ⟨i, hi, hfalse⟩
    have h0 : firstSegvFailure segvOk k ≠ none := by
      intro h
      have := hiff.mp h i hi
      rw [this] at hfalse
      exact absurd hfalse (by simp)
    rcases Option.ne_none_iff_exists'.mp h0 with ⟨j, hj⟩
    simp [msg_loop_go, hj]

theorem crash_reply_after_all_tries_witness :
    msg_loop_go (fun n => n ≠ 2) 0 [.MSG_CRASH] = ⟨.exitProcess 21, [], 0⟩ :=
  (crash_reply_after_all_tries (fun n => n ≠ 2) 0 []).2.2 ⟨2, by decide, by decide⟩

/-- Kernel-supplied results consumed by `debugger_thread_list_test` after
the extra threads are started: the `mx_object_get_info` status, the koids
in the returned records (`threads->rec[i].koid`, with `threads->hdr.count`
their number), and per-koid the `mx_object_get_child` status, whether the
`MX_INFO_HANDLE_BASIC` size out-parameter equals `sizeof(info)`, and the
reported `info.rec.type`. -/
structure ThreadListEnv where
  enumStatus : Int
  koids : List Nat
  childStatus : Nat → Int
  basicInfoSizeOk : Nat → Bool
  objType : Nat → Nat

/-- The checking core of `debugger_thread_list_test` (after the
`MSG_START_EXTRA_THREADS` / `MSG_EXTRA_THREADS_STARTED` exchange):
`ASSERT_EQ` on the enumeration status, `ASSERT_GE` of the returned byte
size — which the kernel contract makes `hdrSize + count * recSize` — against
`sizeof(mx_info_header_t) + (1+NUM_EXTRA_THREADS) *
sizeof(mx_record_process_thread_t)`, and per-entry `EXPECT_EQ`s on the
child-handle status, the info size, and the object type.  `hdrSize` and
`recSize` are the two C struct sizes, fixed by the ABI but opaque here. -/
def debugger_thread_list_test (hdrSize recSize : Nat)
    (env : ThreadListEnv) : Bool :=
  let size := hdrSize + env.koids.length * recSize
  (env.enumStatus == 0) &&
  (decide (hdrSize + (1 + NUM_EXTRA_THREADS) * recSize ≤ size)) &&
  env.koids.all (fun kd =>
    (env.childStatus kd == 0) && env.basicInfoSizeOk kd &&
      (env.objType kd == MX_OBJ_TYPE_THREAD))

/-- Claim C6: the inferior's `MSG_START_EXTRA_THREADS` handler spawns
`NUM_EXTRA_THREADS` threads and replies `MSG_EXTRA_THREADS_STARTED`
(1 + NUM_EXTRA_THREADS = 5 threads in the process), and
`debugger_thread_list_test` passes only if the enumeration returned at
least `1 + NUM_EXTRA_THREADS` entries and every returned koid resolved to a
handle of object type `MX_OBJ_TYPE_THREAD`. -/
theorem thread_list_valid :
    (∀ (segvOk : Nat → Bool) (k : Nat) (rest : List Message),
        msg_loop_go segvOk k (.MSG_START_EXTRA_THREADS :: rest) =
          ⟨(msg_loop_go segvOk k rest).outcome,
            .MSG_EXTRA_THREADS_STARTED :: (msg_loop_go segvOk k rest).sends,
            NUM_EXTRA_THREADS + (msg_loop_go segvOk k rest).threadsSpawned⟩)
    ∧ 1 + NUM_EXTRA_THREADS = 5
    ∧ (∀ (hdrSize recSize : Nat) (env : ThreadListEnv), 0 < recSize →
        debugger_thread_list_test hdrSize recSize env = true →
        1 + NUM_EXTRA_THREADS ≤ env.koids.length
          ∧ ∀ kd ∈ env.koids,
              env.childStatus kd = 0 ∧ env.objType kd = MX_OBJ_TYPE_THREAD) := by
  refine ⟨fun segvOk k rest => by simp [msg_loop_go], rfl, ?_⟩
  intro hdrSize recSize env hrec h
  simp only [debugger_thread_list_test, Bool.and_eq_true, List.all_eq_true,
    beq_iff_eq, decide_eq_true_eq] at h
  obtain ⟨⟨_, hsize⟩, hall⟩ := h
  refine ⟨?_, ?_⟩
  · have hmul : (1 + NUM_EXTRA_THREADS) * recSize ≤
        env.koids.length * recSize := by omega
    exact Nat.le_of_mul_le_mul_right hmul hrec
  · intro kd hkd
    obtain ⟨⟨h1, _⟩, h3⟩ := hall kd hkd
    exact ⟨h1, h3⟩

/-- A concrete enumeration: five koids, all resolving to thread handles. -/
def fiveThreadEnv : ThreadListEnv :=
  ⟨0, [10, 11, 12, 13, 14], fun _ => 0, fun _ => true,
    fun _ => MX_OBJ_TYPE_THREAD⟩

theorem thread_list_valid_witness :
    1 + NUM_EXTRA_THREADS ≤ fiveThreadEnv.koids.length
      ∧ ∀ kd ∈ fiveThreadEnv.koids,
          fiveThreadEnv.childStatus kd = 0
            ∧ fiveThreadEnv.objType kd = MX_OBJ_TYPE_THREAD :=
  thread_list_valid.2.2 16 8 fiveThreadEnv (by decide) (by decide)

/-- Claim C8: a message kind not among `MSG_DONE`, `MSG_PING`, `MSG_CRASH`,
`MSG_START_EXTRA_THREADS` hits the `switch` default case, which only logs:
the loop continues with identical behavior — no reply, no thread spawned,
no state change, not fatal. -/
theorem unknown_message_ignored (segvOk : Nat → Bool) (k : Nat)
    (m : Message) (rest : List Message)
    (h : m ≠ .MSG_DONE ∧ m ≠ .MSG_PING ∧ m ≠ .MSG_CRASH ∧
      m ≠ .MSG_START_EXTRA_THREADS) :
    msg_loop_go segvOk k (m :: rest) = msg_loop_go segvOk k rest := by
  obtain ⟨h1, h2, h3, h4⟩ := h
  cases m <;> simp_all [msg_loop_go]

theorem unknown_message_ignored_witness :
    msg_loop_go (fun _ => true) 0 [.unknown 42, .MSG_DONE] =
      msg_loop_go (fun _ => true) 0 [.MSG_DONE] :=
  unknown_message_ignored (fun _ => true) 0 (.unknown 42) [.MSG_DONE]
    ⟨by decide, by decide, by decide, by decide⟩

/-- Claim C10: on `MSG_DONE` the loop exits with no reply and no spawned
thread; a successful `msg_loop` makes `test_inferior` set `done_tests` and
exit with code 1234, which differs from 0, -1, 5, 20 and 21. -/
theorem done_exit_code (segvOk : Nat → Bool) (msgs rest : List Message) :
    msg_loop_go segvOk 0 (.MSG_DONE :: rest) = ⟨.returns true, [], 0⟩
    ∧ ((msg_loop segvOk msgs).outcome = .returns true →
        test_inferior segvOk msgs = (true, 1234))
    ∧ test_inferior segvOk (.MSG_DONE :: rest) = (true, 1234)
    ∧ ((1234 : Int) ≠ 0 ∧ (1234 : Int) ≠ -1 ∧ (1234 : Int) ≠ 5
        ∧ (1234 : Int) ≠ 20 ∧ (1234 : Int) ≠ 21) := by
  have hdone : msg_loop_go segvOk 0 (.MSG_DONE :: rest) =
      ⟨.returns true, [], 0⟩ := by
    simp [msg_loop_go]
  refine ⟨hdone, ?_, ?_, by decide⟩
  · intro h
    simp [test_inferior, h]
  · simp [test_inferior, msg_loop, hdone]

theorem done_exit_code_witness :
    test_inferior (fun _ => true) [.MSG_DONE] = (true, 1234) :=
  (done_exit_code (fun _ => true) [.MSG_DONE] []).2.1 (by decide)

/-- The values stored by the two assignments to `done_tests` in the
program: `done_tests = true;` in `test_inferior` and `done_tests = true;`
in `main`.  The flag is initialized to `false` and written nowhere else. -/
def doneTestsWrites : List Bool := [true, true]

/-- The flag value after a sequence of assignments, starting from `init`:
each assignment overwrites the flag with the stored value. -/
def flagAfter (init : Bool) (writes : List Bool) : Bool :=
  writes.foldl (fun _ v => v) init

theorem flagAfter_allTrue :
    ∀ writes : List Bool, (∀ v ∈ writes, v = true) →
      flagAfter true writes = true := by
  intro writes
  induction writes with
  | nil => intro _; rfl
  | cons a r ih =>
    intro h
    have ha : a = true := h a (List.mem_cons_self a r)
    rw [flagAfter, List.foldl_cons, ha]
    exact ih (fun v hv => h v (List.mem_cons_of_mem a hv))

theorem flagAfter_append (init : Bool) (p r : List Bool) :
    flagAfter init (p ++ r) = flagAfter (flagAfter init p) r := by
  simp [flagAfter, List.foldl_append]

/-- Claim C9: every assignment to `done_tests` in the program stores
`true`, so starting from the initial `false` the flag is monotone — once
any program-order interleaving of those writes has made it true, any
further writes drawn from the program leave it true, and it is never reset
to false. -/
theorem done_tests_monotone :
    (∀ v ∈ doneTestsWrites, v = true)
    ∧ (∀ p r : List Bool, (∀ v ∈ r, v ∈ doneTestsWrites) →
        flagAfter false p = true → flagAfter false (p ++ r) = true) := by
  refine ⟨by decide, ?_⟩
  intro p r hr hp
  rw [flagAfter_append, hp]
  exact flagAfter_allTrue r (fun v hv => by
    have := hr v hv
    simpa [doneTestsWrites] using this)

theorem done_tests_monotone_witness :
    flagAfter false ([true] ++ [true]) = true :=
  done_tests_monotone.2 [true] [true] (by decide) (by decide)
